import Mathlib

/-!
Verification development for the DataCleaner pipeline
(src/DataCleaner/cleaner.py).

A table is modelled column-wise: an ordered list of named columns, each
carrying a declared scalar type and a list of cells, where a cell is either
a present scalar value or the missing marker (modelled as `none`).
Floating-point values are modelled as rationals; the statistics involved
(mean, median) are exact on the inputs under consideration.

Stateful pandas operations are embedded by explicit state passing:
`fill_missing` returns a pair `(state of the frame passed in after the
call, returned frame)`, because its `mean`/`median`/`mode` branches assign
columns of the argument in place (`df[c] = df[c].fillna(v)`, cleaner.py
lines 148 and 155) while `drop`/`constant` build a fresh frame.
-/

namespace DataCleaner

/-- Declared scalar type of a column, as inferred at load time
(spec section 3: integer, floating-point, boolean, text). -/
inductive DType where
  | intT
  | floatT
  | boolT
  | textT
deriving DecidableEq, Repr

/-- A scalar cell value.  Floats are modelled as rationals. -/
inductive Value where
  | int (n : Int)
  | float (q : Rat)
  | bool (b : Bool)
  | str (s : String)
deriving DecidableEq, Repr

/-- A column: name, declared dtype, and cells (`none` is the missing marker). -/
structure Column where
  name : String
  dtype : DType
  values : List (Option Value)
deriving DecidableEq, Repr

/-- A table is an ordered list of columns (all of equal length in well-formed
tables). -/
abbrev Table := List Column

/-- Column names of a table, in order (models `df.columns`). -/
def names (t : Table) : List String := t.map (fun col => col.name)

/-- Look a column up by name (models `df[c]` for a single label). -/
def getCol (t : Table) (c : String) : Option Column :=
  t.find? (fun col => col.name = c)

/-- Number of rows, read off the first column (all columns agree in a
well-formed table). -/
def numRows (t : Table) : Nat :=
  ((t.head?).map (fun col => col.values.length)).getD 0

/-- Cell of column `c` at row `i`: `none` if the column is absent, otherwise
`some` of the cell (which is itself `none` when the value is missing). -/
def cellAt (t : Table) (c : String) (i : Nat) : Option (Option Value) :=
  (getCol t c).map (fun col => col.values.getD i none)

/-- Row `i` restricted to the comparison columns `cols`, as compared by
pandas duplicate detection: the missing marker compares equal to itself. -/
def rowKey (t : Table) (cols : List String) (i : Nat) :
    List (Option (Option Value)) :=
  cols.map (fun c => cellAt t c i)

/-- Keep, of every column, exactly the rows whose indices are listed in
`idxs` (in that order). -/
def filterRows (t : Table) (idxs : List Nat) : Table :=
  t.map (fun col => { col with values := idxs.map (fun i => col.values.getD i none) })

/-- Effective column list of an optional subset argument, with Python
truthiness: `list(subset) if subset else list(df.columns)` treats both
`None` and an empty sequence as «all columns» (cleaner.py lines 96 and 132). -/
def effCols (t : Table) (subset : Option (List String)) : List String :=
  match subset with
  | none => names t
  | some [] => names t
  | some l => l

/-- Indices of the rows kept by `drop_duplicates(keep="first")`: a row is
kept iff no earlier row has the same key on the comparison columns. -/
def dedupIdx (t : Table) (cols : List String) : List Nat :=
  (List.range (numRows t)).filter
    (fun i => decide (∀ j < i, rowKey t cols j ≠ rowKey t cols i))

/-- Embeds `remove_duplicates` (cleaner.py lines 83-96):
`df.drop_duplicates(subset=list(subset) if subset else None, keep="first")`.
`drop_duplicates` returns a new frame and leaves its argument unchanged. -/
def remove_duplicates (df : Table) (subset : Option (List String)) : Table :=
  filterRows df (dedupIdx df (effCols df subset))

/-- Count of distinct non-missing values, `df[c].nunique(dropna=True)`. -/
def nunique (col : Column) : Nat :=
  (col.values.filterMap id).dedup.length

/-- Embeds `drop_constant_columns` (cleaner.py lines 99-111): collect the
names with `nunique(dropna=True) <= 1`, then `df.drop(columns=cols_to_drop)`,
which removes every column bearing one of those names and returns a new
frame. -/
def drop_constant_columns (df : Table) : Table :=
  let colsToDrop := (df.filter (fun col => nunique col ≤ 1)).map (fun col => col.name)
  df.filter (fun col => decide (col.name ∉ colsToDrop))

/-- Strip leading and trailing whitespace from a character list (Python's
str.strip as performed by the numeric constructors). -/
def stripChars (l : List Char) : List Char :=
  ((l.dropWhile Char.isWhitespace).reverse.dropWhile Char.isWhitespace).reverse

/-- Parser for Python's int constructor on strings: optional surrounding
whitespace, an optional sign, then a nonempty run of decimal digits
(digit-group underscores and non-ASCII digits are not modelled).  Returns
`none` where Python raises ValueError. -/
def parseIntText (s : String) : Option Int :=
  let core : Int × List Char :=
    match stripChars s.toList with
    | '+' :: r => (1, r)
    | '-' :: r => (-1, r)
    | r => (1, r)
  if core.2 ≠ [] ∧ core.2.all Char.isDigit then
    some (core.1 * (core.2.foldl (fun a c => a * 10 + (c.toNat - 48)) 0 : Nat))
  else none

/-- Split a character list at the first character satisfying `p`; the second
component is `none` when no such character occurs. -/
def splitOnPred (p : Char → Bool) : List Char → List Char × Option (List Char)
  | [] => ([], none)
  | c :: cs =>
      if p c then ([], some cs)
      else
        let r := splitOnPred p cs
        (c :: r.1, r.2)

/-- Digits of a character list as a natural number (assumes all digits). -/
def digitsToNat (l : List Char) : Nat :=
  l.foldl (fun a c => a * 10 + (c.toNat - 48)) 0

/-- Parser for Python's float constructor on strings, modelled over the
rationals: optional whitespace and sign, a mantissa with an optional decimal
point (digits required on at least one side), and an optional exponent part.
The special tokens inf/nan and digit-group underscores are not modelled.
Returns `none` where Python raises ValueError. -/
def parseFloatText (s : String) : Option Rat :=
  let signed : Rat × List Char :=
    match stripChars s.toList with
    | '+' :: r => (1, r)
    | '-' :: r => (-1, r)
    | r => (1, r)
  let mexp := splitOnPred (fun c => c = 'e' ∨ c = 'E') signed.2
  let ipfp := splitOnPred (fun c => c = '.') mexp.1
  let ip := ipfp.1
  let fp := (ipfp.2).getD []
  let expVal : Option Int :=
    match mexp.2 with
    | none => some 0
    | some es =>
        match es with
        | '+' :: ds => if ds ≠ [] ∧ ds.all Char.isDigit then some (digitsToNat ds) else none
        | '-' :: ds => if ds ≠ [] ∧ ds.all Char.isDigit then some (-(digitsToNat ds : Int)) else none
        | ds => if ds ≠ [] ∧ ds.all Char.isDigit then some (digitsToNat ds) else none
  if (ip ++ fp) ≠ [] ∧ ip.all Char.isDigit ∧ fp.all Char.isDigit then
    match expVal with
    | none => none
    | some e =>
        some (signed.1 * (digitsToNat (ip ++ fp) : Rat) / (10 : Rat) ^ fp.length * (10 : Rat) ^ e)
  else none

/-- Embeds `convert_fill_value` (cleaner.py lines 160-185).  The try/except
that swallows conversion failures is modelled by the parsers returning
`none`, in which case the raw string is substituted (the final
`return val`).  Python's `bool(val)` on a string is `val != ""`. -/
def convert_fill_value (dtype : DType) (val : String) : Value :=
  match dtype with
  | DType.intT =>
      match parseIntText val with
      | some n => Value.int n
      | none => Value.str val
  | DType.floatT =>
      match parseFloatText val with
      | some q => Value.float q
      | none => Value.str val
  | DType.boolT =>
      let low := val.toLower
      if low = "1" ∨ low = "true" ∨ low = "t" ∨ low = "yes" ∨ low = "y" then
        Value.bool true
      else if low = "0" ∨ low = "false" ∨ low = "f" ∨ low = "no" ∨ low = "n" then
        Value.bool false
      else Value.bool (decide (val ≠ ""))
  | DType.textT => Value.str val

/-- Numeric read-back of a cell value, for the statistics (`mean`/`median`
run on pandas numeric columns; integer and float cells carry the number). -/
def toRat : Value → Option Rat
  | Value.int n => some (n : Rat)
  | Value.float q => some q
  | _ => none

/-- Whether a dtype is selected by `select_dtypes(include=["number"])`:
integer and float, not boolean, not text. -/
def numericDtype : DType → Bool
  | DType.intT => true
  | DType.floatT => true
  | _ => false

/-- Non-missing numeric contents of a column. -/
def numsOf (col : Column) : List Rat :=
  col.values.filterMap (fun v => v.bind toRat)

/-- Series mean with pandas skipna semantics: mean of the non-missing
values, or the missing marker (NaN, modelled `none`) when there are none. -/
def meanOf (col : Column) : Option Rat :=
  let xs := numsOf col
  if xs.isEmpty then none else some (xs.sum / (xs.length : Rat))

/-- Insert into a sorted list of rationals, keeping it sorted. -/
def insertSorted (x : Rat) : List Rat → List Rat
  | [] => [x]
  | y :: ys => if x ≤ y then x :: y :: ys else y :: insertSorted x ys

/-- Insertion sort of a list of rationals (ascending). -/
def sortRats (l : List Rat) : List Rat := l.foldr insertSorted []

/-- Series median with pandas semantics: sort the non-missing values; the
middle element for odd count, the average of the two middle elements for
even count; the missing marker (`none`) for an empty series. -/
def medianOf (col : Column) : Option Rat :=
  let xs := sortRats (numsOf col)
  if xs.length = 0 then none
  else if xs.length % 2 = 1 then some (xs.getD (xs.length / 2) 0)
  else some ((xs.getD (xs.length / 2 - 1) 0 + xs.getD (xs.length / 2) 0) / 2)

/-- The statistic chosen in the loop body of the mean/median branch
(cleaner.py lines 144-147). -/
def statOf (strategy : String) (col : Column) : Option Rat :=
  if strategy = "mean" then meanOf col else medianOf col

/-- Per-column effect of `df[c] = df[c].fillna(v)` with `v` the computed
statistic: when the statistic exists, each missing cell becomes the
statistic as a float; filling with NaN (no statistic) is a no-op. -/
def fillNumericCol (strategy : String) (col : Column) : Column :=
  match statOf strategy col with
  | none => col
  | some q => { col with values := col.values.map (fun v => some (v.getD (Value.float q))) }

/-- Per-column effect of the constant strategy: every missing cell becomes
the coerced fill value, present cells are untouched. -/
def fillConstCol (fv : String) (col : Column) : Column :=
  { col with values := col.values.map (fun v => some (v.getD (convert_fill_value col.dtype fv))) }

/-- Comparison used by pandas when sorting the candidates of `mode`:
numbers by value, booleans with false before true, strings
lexicographically; distinct shapes are ordered by an arbitrary rank (pandas
only meets this case on mixed object columns). -/
def valueLe (a b : Value) : Bool :=
  match a, b with
  | Value.int m, Value.int n => decide (m ≤ n)
  | Value.int m, Value.float q => decide ((m : Rat) ≤ q)
  | Value.float q, Value.int n => decide (q ≤ (n : Rat))
  | Value.float p, Value.float q => decide (p ≤ q)
  | Value.bool x, Value.bool y => !x || y
  | Value.str s, Value.str u => decide (s ≤ u)
  | Value.bool _, _ => true
  | _, Value.bool _ => false
  | Value.str _, _ => false
  | _, Value.str _ => true

/-- Most frequent non-missing value of a column, smallest first on ties,
as `df[c].mode(dropna=True)` followed by `.iloc[0]`; `none` when the column
has no non-missing value (`modes.empty`). -/
def modeOf (col : Column) : Option Value :=
  let xs := col.values.filterMap id
  let maxCount := (xs.map (fun v => xs.count v)).foldl max 0
  match xs.dedup.filter (fun v => xs.count v = maxCount) with
  | [] => none
  | c :: cs => some (cs.foldl (fun a b => if valueLe b a then b else a) c)

/-- Per-column effect of the mode strategy (cleaner.py lines 151-156). -/
def fillModeCol (col : Column) : Column :=
  match modeOf col with
  | none => col
  | some v => { col with values := col.values.map (fun x => some (x.getD v)) }

/-- Indices of the rows kept by `df.dropna(subset=target_cols)`: a row
survives iff none of the target columns is missing there. -/
def dropnaRows (t : Table) (target : List String) : Table :=
  filterRows t
    ((List.range (numRows t)).filter
      (fun i => target.all (fun c => decide (cellAt t c i ≠ some none))))

/-- Failure modes of the imputation stage.  The code raises ValueError at
two distinct sites (cleaner.py lines 137 and 157); the spec's taxonomy
names them MissingFillValueError and UnknownStrategyError. -/
inductive CleanError where
  | missingFillValue
  | unknownStrategy (s : String)
deriving DecidableEq, Repr

/-- Embeds `fill_missing` (cleaner.py lines 114-157) with explicit state
passing: the result pair is (state of the frame passed in after the call,
returned frame).  The drop and constant branches call `dropna` / `fillna`,
which build new frames; the mean/median and mode branches assign columns of
the argument in place (`df[c] = df[c].fillna(v)`) and then return that same
frame, so there the two components coincide and differ from the input
whenever a value was filled. -/
def fill_missing (df : Table) (strategy : String) (fill_value : Option String)
    (subset : Option (List String)) : Except CleanError (Table × Table) :=
  let target := effCols df subset
  if strategy = "drop" then
    Except.ok (df, dropnaRows df target)
  else if strategy = "constant" then
    match fill_value with
    | none => Except.error CleanError.missingFillValue
    | some fv =>
        Except.ok (df, df.map (fun col =>
          if col.name ∈ target then fillConstCol fv col else col))
  else if strategy = "mean" ∨ strategy = "median" then
    let df2 := df.map (fun col =>
      if col.name ∈ target ∧ numericDtype col.dtype then fillNumericCol strategy col else col)
    Except.ok (df2, df2)
  else if strategy = "mode" then
    let df2 := df.map (fun col => if col.name ∈ target then fillModeCol col else col)
    Except.ok (df2, df2)
  else Except.error (CleanError.unknownStrategy strategy)

/-- Delimiter resolution of `read_table` (cleaner.py lines 75-79): the
explicit separator when supplied, else the detector's result when
determined, else comma.  The detector itself (csv.Sniffer over a byte
sample) is abstracted into its optional result. -/
def effective_sep (sep : Option String) (detected : Option String) : String :=
  match sep with
  | some s => s
  | none =>
      match detected with
      | some d => d
      | none => ","

/-- Cleaning options of a pipeline run (the relevant fields of the parsed
command line). -/
structure CleanArgs where
  dedup : Bool
  dedupCols : Option (List String)
  dropConst : Bool
  missing : Option String
  fill : Option String
  missingCols : Option (List String)
deriving Repr

/-- Embeds the stage sequencing of `main` (cleaner.py lines 348-364):
dedup, then constant-column pruning, then missing-value handling; an
imputation error aborts the run (exit code 4). -/
def runPipeline (df : Table) (a : CleanArgs) : Except CleanError Table :=
  let df1 := if a.dedup then remove_duplicates df a.dedupCols else df
  let df2 := if a.dropConst then drop_constant_columns df1 else df1
  match a.missing with
  | none => Except.ok df2
  | some strat => (fill_missing df2 strat a.fill a.missingCols).map (fun r => r.2)

/-- The table written by `write_table`, if any: `main` exits before the
write on any imputation error (cleaner.py lines 354-368), so a failing run
produces no output file. -/
def pipelineOutput (df : Table) (a : CleanArgs) : Option Table :=
  (runPipeline df a).toOption

/-- A subset argument only naming existing columns (the pandas calls raise
KeyError otherwise, which the claims exclude). -/
def validSubset (t : Table) : Option (List String) → Prop
  | none => True
  | some l => ∀ c ∈ l, c ∈ names t

/-- Spec-side restatement of the Fill-Value Coercer contract (spec section
4.6), written from the spec's words for comparison with
`convert_fill_value`: the parsed integer (resp. float) when the text
parses, token-table boolean with truthiness of the raw text as fallback,
text verbatim, and the raw string on any conversion failure. -/
def coercerSpec (dtype : DType) (val : String) : Value :=
  match dtype with
  | DType.intT => (parseIntText val).elim (Value.str val) Value.int
  | DType.floatT => (parseFloatText val).elim (Value.str val) Value.float
  | DType.boolT =>
      if val.toLower ∈ ["1", "true", "t", "yes", "y"] then Value.bool true
      else if val.toLower ∈ ["0", "false", "f", "no", "n"] then Value.bool false
      else Value.bool (decide (val ≠ ""))
  | DType.textT => Value.str val

/-- Spec-side deduplication (spec section 4.3, written from the spec's
words): walk the rows in order with the set of keys seen so far, keep a row
exactly when its comparison key has not appeared before (first occurrence
kept, survivor order preserved). -/
def specKeptAux (key : Nat → List (Option (Option Value))) :
    List Nat → List (List (Option (Option Value))) → List Nat
  | [], _ => []
  | i :: is, seen =>
      if key i ∈ seen then specKeptAux key is seen
      else i :: specKeptAux key is (key i :: seen)

/-- Row indices kept by the spec-side deduplication. -/
def specKept (t : Table) (cols : List String) : List Nat :=
  specKeptAux (rowKey t cols) (List.range (numRows t)) []

/-- Spec-side deduplicated table: first occurrences of each distinct key
combination, in original order. -/
def dedupSpec (t : Table) (cols : List String) : Table :=
  filterRows t (specKept t cols)

/-- Numeric column with values 1, missing, 3 (spec testable property 5). -/
def meanExample : Table :=
  [⟨"x", DType.floatT, [some (Value.float 1), none, some (Value.float 3)]⟩]

/-- The mean-imputed form of `meanExample`: 1, 2, 3. -/
def meanExampleFilled : Table :=
  [⟨"x", DType.floatT, [some (Value.float 1), some (Value.float 2), some (Value.float 3)]⟩]

/-- Numeric column with values 1, missing, 3, 3 (spec testable property 5). -/
def medianExample : Table :=
  [⟨"x", DType.floatT, [some (Value.float 1), none, some (Value.float 3), some (Value.float 3)]⟩]

/-- The median-imputed form of `medianExample`: 1, 3, 3, 3. -/
def medianExampleFilled : Table :=
  [⟨"x", DType.floatT,
    [some (Value.float 1), some (Value.float 3), some (Value.float 3), some (Value.float 3)]⟩]

/-- Integer column with one present and one missing cell. -/
def intFillExample : Table := [⟨"n", DType.intT, [some (Value.int 5), none]⟩]

/-- The form of `intFillExample` after constant-filling with integer 0. -/
def intFillExampleInt : Table := [⟨"n", DType.intT, [some (Value.int 5), some (Value.int 0)]⟩]

/-- The form `intFillExample` would take if the text "0" were substituted unconverted. -/
def intFillExampleStr : Table := [⟨"n", DType.intT, [some (Value.int 5), some (Value.str "0")]⟩]

/-- One column with two distinct rows. -/
def twoRowsExample : Table := [⟨"a", DType.intT, [some (Value.int 1), some (Value.int 2)]⟩]

/-- Two identical rows whose first column is missing in both. -/
def naPairExample : Table :=
  [⟨"a", DType.floatT, [none, none]⟩, ⟨"b", DType.intT, [some (Value.int 1), some (Value.int 1)]⟩]

/-- Deduplicated form of `naPairExample`: the second row removed. -/
def naPairDeduped : Table :=
  [⟨"a", DType.floatT, [none]⟩, ⟨"b", DType.intT, [some (Value.int 1)]⟩]

/-- Constant column next to a non-constant column. -/
def pruneExample : Table :=
  [⟨"c", DType.intT, [some (Value.int 7), some (Value.int 7)]⟩,
   ⟨"d", DType.intT, [some (Value.int 1), some (Value.int 2)]⟩]

/-- A table all of whose columns are constant. -/
def allConstExample : Table := [⟨"c", DType.intT, [some (Value.int 7), some (Value.int 7)]⟩]

/-- A table with a duplicated row. -/
def dupRowsExample : Table :=
  [⟨"a", DType.intT, [some (Value.int 1), some (Value.int 1), some (Value.int 2)]⟩]

/-- A numeric column all of whose cells are missing. -/
def allMissingExample : Table := [⟨"x", DType.floatT, [none, none]⟩]

theorem names_filterRows (t : Table) (idxs : List Nat) :
    names (filterRows t idxs) = names t := by
  simp [names, filterRows, List.map_map, Function.comp]

theorem effCols_filterRows (t : Table) (idxs : List Nat) (subset : Option (List String)) :
    effCols (filterRows t idxs) subset = effCols t subset := by
  cases subset with
  | none => simpa [effCols] using names_filterRows t idxs
  | some l =>
    cases l with
    | nil => simpa [effCols] using names_filterRows t idxs
    | cons c cs => rfl

theorem getCol_filterRows (t : Table) (idxs : List Nat) (c : String) :
    getCol (filterRows t idxs) c
      = (getCol t c).map
          (fun col => { col with values := idxs.map (fun i => col.values.getD i none) }) := by
  simp only [getCol, filterRows, List.find?_map]
  rfl

theorem cellAt_filterRows (t : Table) (idxs : List Nat) (c : String) (i : Nat)
    (hi : i < idxs.length) :
    cellAt (filterRows t idxs) c i = cellAt t c idxs[i] := by
  rw [cellAt, getCol_filterRows, cellAt]
  cases h : getCol t c with
  | none => rfl
  | some col =>
    rw [Option.map_some', Option.map_some', Option.map_some']
    refine congrArg some ?_
    rw [List.getD_eq_getElem?_getD, List.getElem?_map, List.getElem?_eq_getElem hi]
    rfl

theorem rowKey_filterRows (t : Table) (idxs : List Nat) (cols : List String) (i : Nat)
    (hi : i < idxs.length) :
    rowKey (filterRows t idxs) cols i = rowKey t cols idxs[i] :=
  List.map_congr_left (fun c _ => cellAt_filterRows t idxs c i hi)

theorem numRows_filterRows (c0 : Column) (r : Table) (idxs : List Nat) :
    numRows (filterRows (c0 :: r) idxs) = idxs.length := by
  simp [numRows, filterRows]

theorem mem_dedupIdx (t : Table) (cols : List String) (i : Nat) :
    i ∈ dedupIdx t cols
      ↔ i < numRows t ∧ ∀ j < i, rowKey t cols j ≠ rowKey t cols i := by
  simp [dedupIdx, List.mem_filter, List.mem_range]

theorem dedupIdx_pairwise (t : Table) (cols : List String) :
    List.Pairwise (· < ·) (dedupIdx t cols) :=
  List.Pairwise.filter _ (List.pairwise_lt_range _)

theorem map_getD_range (v : List (Option Value)) (m : Nat) (hv : v.length = m) :
    (List.range m).map (fun i => v.getD i none) = v := by
  apply List.ext_getElem
  · simp [hv]
  · intro i h1 h2
    rw [List.getElem_map, List.getElem_range, List.getD_eq_getElem v none h2]

theorem specKeptAux_range' (key : Nat → List (Option (Option Value))) :
    ∀ (b a : Nat) (seen : List (List (Option (Option Value)))),
      (∀ k, k ∈ seen ↔ ∃ j < a, key j = k) →
      specKeptAux key (List.range' a b) seen
        = (List.range' a b).filter (fun i => decide (∀ j < i, key j ≠ key i)) := by
  intro b
  induction b with
  | zero => intro a seen _; rfl
  | succ n ih =>
    intro a seen hseen
    rw [List.range'_succ]
    by_cases hmem : key a ∈ seen
    · have hex : ∃ j < a, key j = key a := (hseen (key a)).mp hmem
      have hdec : decide (∀ j < a, key j ≠ key a) = false := by
        simp only [decide_eq_false_iff_not]
        intro hall
        obtain ⟨j, hj, he⟩ := hex
        exact hall j hj he
      rw [specKeptAux, if_pos hmem, List.filter_cons, hdec]
      simp only [Bool.false_eq_true, if_false]
      refine ih (a + 1) seen (fun k => ?_)
      constructor
      · intro hk
        obtain ⟨j, hj, he⟩ := (hseen k).mp hk
        exact ⟨j, Nat.lt_succ_of_lt hj, he⟩
      · rintro ⟨j, hj, he⟩
        rcases Nat.lt_succ_iff_lt_or_eq.mp hj with hj' | rfl
        · exact (hseen k).mpr ⟨j, hj', he⟩
        · exact he ▸ hmem
    · have hnex : ¬ ∃ j < a, key j = key a := fun hex => hmem ((hseen (key a)).mpr hex)
      have hdec : decide (∀ j < a, key j ≠ key a) = true := by
        simp only [decide_eq_true_eq]
        intro j hj he
        exact hnex ⟨j, hj, he⟩
      rw [specKeptAux, if_neg hmem, List.filter_cons, hdec]
      simp only [if_true]
      refine congrArg (a :: ·) (ih (a + 1) (key a :: seen) (fun k => ?_))
      constructor
      · intro hk
        rcases List.mem_cons.mp hk with rfl | hk'
        · exact ⟨a, Nat.lt_succ_self a, rfl⟩
        · obtain ⟨j, hj, he⟩ := (hseen k).mp hk'
          exact ⟨j, Nat.lt_succ_of_lt hj, he⟩
      · rintro ⟨j, hj, he⟩
        rcases Nat.lt_succ_iff_lt_or_eq.mp hj with hj' | rfl
        · exact List.mem_cons_of_mem _ ((hseen k).mpr ⟨j, hj', he⟩)
        · exact he ▸ List.mem_cons_self _ _

theorem specKept_eq_dedupIdx (t : Table) (cols : List String) :
    specKept t cols = dedupIdx t cols := by
  unfold specKept dedupIdx
  rw [List.range_eq_range']
  exact specKeptAux_range' (rowKey t cols) (numRows t) 0 [] (by simp)


/-- Claim C1: for every table, for strategy mean (resp. median) with an
optional subset of existing target columns, the imputer succeeds; every
target column of numeric dtype whose statistic exists has each missing
value replaced by that statistic (the mean resp. median of its non-missing
values) with present values kept; every untargeted or non-numeric column
is returned unchanged; in particular mean on [1, missing, 3] yields
[1, 2, 3] and median on [1, missing, 3, 3] yields [1, 3, 3, 3]. -/
theorem mean_median_imputes_numeric_targets :
    (∀ (t : Table) (strat : String) (fv : Option String) (subset : Option (List String)),
      (strat = "mean" ∨ strat = "median") → validSubset t subset →
      ∃ t2, fill_missing t strat fv subset = Except.ok (t2, t2) ∧
        t2.length = t.length ∧
        (∀ i, (hi : i < t.length) →
          (t[i].name ∉ effCols t subset ∨ ¬ numericDtype t[i].dtype) →
          t2[i]? = some t[i]) ∧
        (∀ i, (hi : i < t.length) → ∀ q,
          t[i].name ∈ effCols t subset → numericDtype t[i].dtype →
          statOf strat t[i] = some q →
          ∃ col2, t2[i]? = some col2 ∧ col2.name = t[i].name ∧ col2.dtype = t[i].dtype ∧
            ∀ j : Nat, col2.values[j]? = (t[i].values[j]?).map
              (fun (v : Option Value) => some (v.getD (Value.float q)))))
    ∧ fill_missing meanExample "mean" none none
        = Except.ok (meanExampleFilled, meanExampleFilled)
    ∧ fill_missing medianExample "median" none none
        = Except.ok (medianExampleFilled, medianExampleFilled) := by
  refine ⟨?_, ?_, ?_⟩
  · intro t strat fv subset hs _
    have hs1 : strat ≠ "drop" := by rcases hs with rfl | rfl <;> decide
    have hs2 : strat ≠ "constant" := by rcases hs with rfl | rfl <;> decide
    refine ⟨t.map (fun col =>
        if col.name ∈ effCols t subset ∧ numericDtype col.dtype
        then fillNumericCol strat col else col), ?_, ?_, ?_, ?_⟩
    · simp only [fill_missing]
      rw [if_neg hs1, if_neg hs2, if_pos hs]
    · simp
    · intro i hi hcond
      rw [List.getElem?_map, List.getElem?_eq_getElem hi, Option.map_some']
      refine congrArg some ?_
      rw [if_neg (by tauto)]
    · intro i hi q hmem hdt hstat
      refine ⟨fillNumericCol strat t[i], ?_, ?_, ?_, ?_⟩
      · rw [List.getElem?_map, List.getElem?_eq_getElem hi, Option.map_some',
          if_pos ⟨hmem, hdt⟩]
      · simp [fillNumericCol, hstat]
      · simp [fillNumericCol, hstat]
      · intro j
        simp [fillNumericCol, hstat, List.getElem?_map]
  · simp [fill_missing, meanExample, meanExampleFilled, effCols, names, fillNumericCol,
      statOf, meanOf, numsOf, toRat, numericDtype]
    norm_num
  · simp [fill_missing, medianExample, medianExampleFilled, effCols, names, fillNumericCol,
      statOf, medianOf, numsOf, toRat, numericDtype, sortRats, insertSorted]

/-- Witness for claim C1: the imputation of the concrete mean example
succeeds. -/
theorem mean_median_imputes_numeric_targets_witness :
    (fill_missing meanExample "mean" none none).isOk = true := by
  obtain ⟨t2, h, -⟩ :=
    mean_median_imputes_numeric_targets.1 meanExample "mean" none none (Or.inl rfl) trivial
  rw [h]
  rfl

/-- Claim C2: for every table and non-null textual fill value, strategy
constant leaves the passed-in table unchanged and returns a table in which
every target column has its missing cells replaced by the fill value
coerced to that column's declared dtype via the Fill-Value Coercer, present
cells and untargeted columns untouched; in particular an integer column
filled with "0" receives the integer 0, not the text "0". -/
theorem constant_fill_coerces_to_dtype :
    (∀ (t : Table) (fv : String) (subset : Option (List String)), validSubset t subset →
      ∃ t2, fill_missing t "constant" (some fv) subset = Except.ok (t, t2) ∧
        t2.length = t.length ∧
        (∀ i, (hi : i < t.length) → t[i].name ∉ effCols t subset → t2[i]? = some t[i]) ∧
        (∀ i, (hi : i < t.length) → t[i].name ∈ effCols t subset →
          ∃ col2, t2[i]? = some col2 ∧ col2.name = t[i].name ∧ col2.dtype = t[i].dtype ∧
            ∀ j : Nat, col2.values[j]? = (t[i].values[j]?).map
              (fun (v : Option Value) =>
                some (v.getD (convert_fill_value t[i].dtype fv)))))
    ∧ fill_missing intFillExample "constant" (some "0") none
        = Except.ok (intFillExample, intFillExampleInt)
    ∧ intFillExampleInt ≠ intFillExampleStr := by
  refine ⟨?_, by rfl, by decide⟩
  intro t fv subset _
  refine ⟨t.map (fun col =>
      if col.name ∈ effCols t subset then fillConstCol fv col else col), ?_, ?_, ?_, ?_⟩
  · simp [fill_missing]
  · simp
  · intro i hi hcond
    rw [List.getElem?_map, List.getElem?_eq_getElem hi, Option.map_some']
    refine congrArg some ?_
    rw [if_neg hcond]
  · intro i hi hmem
    refine ⟨fillConstCol fv t[i], ?_, rfl, rfl, ?_⟩
    · rw [List.getElem?_map, List.getElem?_eq_getElem hi, Option.map_some', if_pos hmem]
    · intro j
      simp [fillConstCol, List.getElem?_map]

/-- Witness for claim C2: the constant fill of the concrete integer
example succeeds. -/
theorem constant_fill_coerces_to_dtype_witness :
    (fill_missing intFillExample "constant" (some "0") none).isOk = true := by
  obtain ⟨t2, h, -⟩ :=
    constant_fill_coerces_to_dtype.1 intFillExample "0" none trivial
  rw [h]
  rfl

/-- Claim C3: for every declared dtype and every textual value, the
Fill-Value Coercer agrees with the spec's case analysis — parsed integer
(resp. float) when the text parses, token-table boolean with truthiness of
the raw text as fallback, text verbatim — and on any conversion failure
returns the raw string; it is a total function, never an error. -/
theorem convert_fill_value_matches_spec :
    ∀ (dtype : DType) (val : String), convert_fill_value dtype val = coercerSpec dtype val := by
  intro dtype val
  cases dtype with
  | intT =>
    cases h : parseIntText val <;> simp [convert_fill_value, coercerSpec, h]
  | floatT =>
    cases h : parseFloatText val <;> simp [convert_fill_value, coercerSpec, h]
  | boolT =>
    simp [convert_fill_value, coercerSpec]
  | textT => rfl

/-- Counterexample to claim C4 as stated: the Missing-Value Imputer with
strategy mean does not leave the table object passed in unchanged — after
the call the state of the argument is the filled table, which differs from
the input. -/
theorem imputer_mean_mutates_input :
    (fill_missing meanExample "mean" none none).map Prod.fst = Except.ok meanExampleFilled
    ∧ meanExampleFilled ≠ meanExample := by
  constructor
  · simp [fill_missing, Except.map, meanExample, meanExampleFilled, effCols, names,
      fillNumericCol, statOf, meanOf, numsOf, toRat, numericDtype]
    norm_num
  · decide

/-- Claim C4 as amended: the Deduplicator and the Constant-Column Pruner
build fresh tables, and the Imputer leaves the passed-in table unchanged
for strategies drop and constant; for strategies mean, median and mode,
however, the Imputer fills columns of the passed-in table in place and
returns that same table (the post-call state of the argument and the
returned table coincide). -/
theorem stage_purity_except_statistical_imputer :
    ∀ (df : Table) (fv : Option String) (subset : Option (List String)),
      (fill_missing df "drop" fv subset).map Prod.fst = Except.ok df
      ∧ (∀ v, (fill_missing df "constant" (some v) subset).map Prod.fst = Except.ok df)
      ∧ (∃ t1, fill_missing df "mean" fv subset = Except.ok (t1, t1))
      ∧ (∃ t2, fill_missing df "median" fv subset = Except.ok (t2, t2))
      ∧ (∃ t3, fill_missing df "mode" fv subset = Except.ok (t3, t3)) := by
  intro df fv subset
  refine ⟨?_, fun v => ?_, ?_, ?_, ?_⟩
  · simp [fill_missing, Except.map]
  · simp [fill_missing, Except.map]
  · refine ⟨df.map (fun col =>
      if col.name ∈ effCols df subset ∧ numericDtype col.dtype
      then fillNumericCol "mean" col else col), ?_⟩
    simp [fill_missing]
  · refine ⟨df.map (fun col =>
      if col.name ∈ effCols df subset ∧ numericDtype col.dtype
      then fillNumericCol "median" col else col), ?_⟩
    simp [fill_missing]
  · refine ⟨df.map (fun col =>
      if col.name ∈ effCols df subset then fillModeCol col else col), ?_⟩
    simp [fill_missing]

/-- Counterexample to claim C5 as stated: with the explicitly given empty
subset, the second row's key on the given comparison columns equals the
first row's, yet the Deduplicator keeps both rows — the code treats an
empty subset like an absent one and compares on all columns. -/
theorem empty_subset_dedups_on_all_columns :
    remove_duplicates twoRowsExample (some []) = twoRowsExample
    ∧ rowKey twoRowsExample [] 1 = rowKey twoRowsExample [] 0
    ∧ numRows twoRowsExample = 2 := by
  refine ⟨by decide, rfl, rfl⟩

/-- Claim C5 as amended: with the comparison columns taken as the given
subset when it is nonempty and as all columns when no subset is given or
the given subset is empty, the Deduplicator removes exactly the rows whose
key on the comparison columns already occurred, keeps first occurrences in
order, and treats two missing markers at the same position as equal — it
coincides with the spec-side first-occurrence scan, which removes the
all-missing duplicate row of the concrete example. -/
theorem remove_duplicates_keeps_first_occurrences :
    (∀ (t : Table) (subset : Option (List String)), validSubset t subset →
      remove_duplicates t subset = dedupSpec t (effCols t subset))
    ∧ remove_duplicates naPairExample none = naPairDeduped := by
  constructor
  · intro t subset _
    rw [remove_duplicates, dedupSpec, specKept_eq_dedupIdx]
  · decide

/-- Witness for claim C5 as amended: the deduplication of the concrete
example on column "a" matches the spec-side scan. -/
theorem remove_duplicates_keeps_first_occurrences_witness :
    remove_duplicates naPairExample (some ["a"])
      = dedupSpec naPairExample (effCols naPairExample (some ["a"])) :=
  remove_duplicates_keeps_first_occurrences.1 naPairExample (some ["a"])
    (by simp [validSubset, names, naPairExample])

/-- Claim C6: on a table with distinct column names, the Constant-Column
Pruner removes exactly the columns with at most one distinct non-missing
value — the survivors are the columns with at least two — and the result
is a sublist of the input (surviving columns and their rows unchanged, in
order); a table all of whose columns are constant is pruned to a valid
zero-column table. -/
theorem drop_constant_columns_exact :
    (∀ t : Table, (names t).Nodup →
      drop_constant_columns t
          = t.filter (fun col => decide (2 ≤ (col.values.filterMap id).toFinset.card))
        ∧ List.Sublist (drop_constant_columns t) t)
    ∧ drop_constant_columns allConstExample = [] := by
  constructor
  · intro t hnd
    constructor
    · unfold drop_constant_columns
      apply List.filter_congr
      intro col hcol
      have hcard : (col.values.filterMap id).toFinset.card = nunique col :=
        List.card_toFinset _
      apply decide_eq_decide.mpr
      rw [hcard, List.mem_map]
      constructor
      · intro h
        by_contra hle
        push_neg at hle
        exact h ⟨col, List.mem_filter.mpr ⟨hcol, decide_eq_true (by omega)⟩, rfl⟩
      · rintro h2 ⟨c, hc, hname⟩
        have hc1 := (List.mem_filter.mp hc).1
        have hc2 := of_decide_eq_true (List.mem_filter.mp hc).2
        have hceq : c = col := List.inj_on_of_nodup_map hnd hc1 hcol hname
        rw [hceq] at hc2
        omega
    · exact List.filter_sublist _
  · decide

/-- Witness for claim C6: pruning the concrete two-column example keeps
exactly the non-constant column. -/
theorem drop_constant_columns_exact_witness :
    drop_constant_columns pruneExample
      = pruneExample.filter (fun col => decide (2 ≤ (col.values.filterMap id).toFinset.card)) :=
  (drop_constant_columns_exact.1 pruneExample (by decide)).1

/-- Claim C7: the Table Loader resolves the effective delimiter as the
explicit delimiter when supplied, otherwise the Delimiter Detector's
result when determined, otherwise comma. -/
theorem effective_delimiter_resolution :
    (∀ (s : String) (d : Option String), effective_sep (some s) d = s)
    ∧ (∀ d : String, effective_sep none (some d) = d)
    ∧ effective_sep none none = "," :=
  ⟨fun _ _ => rfl, fun _ => rfl, rfl⟩

/-- Claim C8: the pipeline fails with the missing-fill-value error when the
strategy is constant and no fill value is supplied, and with the
unknown-strategy error for every strategy string outside the enumerated
set; in both cases no output table is produced. -/
theorem fill_missing_error_paths :
    ∀ (df : Table) (a : CleanArgs) (s : String), a.missing = some s →
      ((s = "constant" → a.fill = none →
          runPipeline df a = Except.error CleanError.missingFillValue
          ∧ pipelineOutput df a = none)
        ∧ (s ∉ ["drop", "mean", "median", "mode", "constant"] →
          runPipeline df a = Except.error (CleanError.unknownStrategy s)
          ∧ pipelineOutput df a = none)) := by
  intro df a s hs
  constructor
  · intro h1 h2
    subst h1
    have : runPipeline df a = Except.error CleanError.missingFillValue := by
      simp [runPipeline, hs, fill_missing, h2, Except.map]
    exact ⟨this, by simp [pipelineOutput, this, Except.toOption]⟩
  · intro hnot
    simp only [List.mem_cons, List.not_mem_nil, or_false, not_or] at hnot
    obtain ⟨hd, hm, hmd, hmo, hc⟩ := hnot
    have : runPipeline df a = Except.error (CleanError.unknownStrategy s) := by
      simp [runPipeline, hs, fill_missing, hd, hm, hmd, hmo, hc, Except.map]
    exact ⟨this, by simp [pipelineOutput, this, Except.toOption]⟩

/-- Witness for claim C8: both error paths at concrete arguments. -/
theorem fill_missing_error_paths_witness :
    (runPipeline [] ⟨false, none, false, some "constant", none, none⟩
        = Except.error CleanError.missingFillValue
      ∧ pipelineOutput [] ⟨false, none, false, some "constant", none, none⟩ = none)
    ∧ (runPipeline [] ⟨false, none, false, some "bogus", none, none⟩
        = Except.error (CleanError.unknownStrategy "bogus")
      ∧ pipelineOutput [] ⟨false, none, false, some "bogus", none, none⟩ = none) :=
  ⟨(fill_missing_error_paths [] ⟨false, none, false, some "constant", none, none⟩
      "constant" rfl).1 rfl rfl,
   (fill_missing_error_paths [] ⟨false, none, false, some "bogus", none, none⟩
      "bogus" rfl).2 (by decide)⟩

/-- Claim C9: applying the Deduplicator twice in succession with the same
optional subset of existing column names yields the same table as applying
it once. -/
theorem remove_duplicates_idempotent :
    ∀ (t : Table) (subset : Option (List String)), validSubset t subset →
      remove_duplicates (remove_duplicates t subset) subset = remove_duplicates t subset := by
  intro t subset _
  cases t with
  | nil => rfl
  | cons c0 r =>
    have heff : effCols (remove_duplicates (c0 :: r) subset) subset
        = effCols (c0 :: r) subset := effCols_filterRows _ _ _
    have hnum : numRows (remove_duplicates (c0 :: r) subset)
        = (dedupIdx (c0 :: r) (effCols (c0 :: r) subset)).length :=
      numRows_filterRows _ _ _
    have hkeep : dedupIdx (remove_duplicates (c0 :: r) subset) (effCols (c0 :: r) subset)
        = List.range (dedupIdx (c0 :: r) (effCols (c0 :: r) subset)).length := by
      rw [dedupIdx, hnum]
      apply List.filter_eq_self.mpr
      intro i' hi'
      have hi2 : i' < (dedupIdx (c0 :: r) (effCols (c0 :: r) subset)).length :=
        List.mem_range.mp hi'
      refine decide_eq_true ?_
      intro j' hj' heq
      have hj2 : j' < (dedupIdx (c0 :: r) (effCols (c0 :: r) subset)).length :=
        lt_trans hj' hi2
      rw [remove_duplicates] at heq
      rw [rowKey_filterRows _ _ _ i' hi2, rowKey_filterRows _ _ _ j' hj2] at heq
      have hlt := (List.pairwise_iff_getElem.mp
        (dedupIdx_pairwise (c0 :: r) (effCols (c0 :: r) subset))) j' i' hj2 hi2 hj'
      have hmem : (dedupIdx (c0 :: r) (effCols (c0 :: r) subset))[i']
          ∈ dedupIdx (c0 :: r) (effCols (c0 :: r) subset) := List.getElem_mem hi2
      exact ((mem_dedupIdx _ _ _).mp hmem).2 _ hlt heq
    rw [remove_duplicates, heff, hkeep]
    rw [remove_duplicates, filterRows, filterRows, List.map_map]
    apply List.map_congr_left
    intro col _
    simp only [Function.comp]
    have hlen : ((dedupIdx (c0 :: r) (effCols (c0 :: r) subset)).map
        (fun i => col.values.getD i none)).length
        = (dedupIdx (c0 :: r) (effCols (c0 :: r) subset)).length := by simp
    rw [map_getD_range _ _ hlen]

/-- Witness for claim C9: idempotence at a concrete table with a duplicate
row. -/
theorem remove_duplicates_idempotent_witness :
    remove_duplicates (remove_duplicates dupRowsExample (some ["a"])) (some ["a"])
      = remove_duplicates dupRowsExample (some ["a"]) :=
  remove_duplicates_idempotent dupRowsExample (some ["a"])
    (by simp [validSubset, names, dupRowsExample])

/-- Claim C10: for strategies mean and median, a column whose cells are all
missing is left completely unchanged — the statistic over zero non-missing
values is the missing marker, so the fill is a no-op and the column stays
fully missing. -/
theorem all_missing_numeric_column_untouched :
    (∀ (t : Table) (strat : String) (fv : Option String) (subset : Option (List String)),
      (strat = "mean" ∨ strat = "median") →
      ∃ t2, fill_missing t strat fv subset = Except.ok (t2, t2) ∧
        ∀ i, (hi : i < t.length) → (∀ v ∈ t[i].values, v = none) → t2[i]? = some t[i])
    ∧ fill_missing allMissingExample "mean" none none
        = Except.ok (allMissingExample, allMissingExample) := by
  constructor
  · intro t strat fv subset hs
    have hs1 : strat ≠ "drop" := by rcases hs with rfl | rfl <;> decide
    have hs2 : strat ≠ "constant" := by rcases hs with rfl | rfl <;> decide
    refine ⟨t.map (fun col =>
        if col.name ∈ effCols t subset ∧ numericDtype col.dtype
        then fillNumericCol strat col else col), ?_, ?_⟩
    · simp only [fill_missing]
      rw [if_neg hs1, if_neg hs2, if_pos hs]
    · intro i hi hmiss
      rw [List.getElem?_map, List.getElem?_eq_getElem hi, Option.map_some']
      refine congrArg some ?_
      by_cases hc : t[i].name ∈ effCols t subset ∧ numericDtype t[i].dtype
      · rw [if_pos hc]
        have hnums : numsOf t[i] = [] := by
          apply List.filterMap_eq_nil_iff.mpr
          intro v hv
          rw [hmiss v hv]
          rfl
        have hstat : statOf strat t[i] = none := by
          rcases hs with rfl | rfl
          · simp [statOf, meanOf, hnums]
          · simp [statOf, medianOf, hnums, sortRats]
        simp [fillNumericCol, hstat]
      · rw [if_neg hc]
  · rfl

/-- Witness for claim C10: the median strategy succeeds on the concrete
all-missing column. -/
theorem all_missing_numeric_column_untouched_witness :
    (fill_missing allMissingExample "median" none none).isOk = true := by
  obtain ⟨t2, h, -⟩ :=
    all_missing_numeric_column_untouched.1 allMissingExample "median" none none (Or.inr rfl)
  rw [h]
  rfl

end DataCleaner
